import Mathlib

/-!
Verification development for the R2DJ live audio slicing pipeline.

The TypeScript source is shallowly embedded here:
* JavaScript number arithmetic is modelled exactly over `ℚ`;
* audio frames (`Float32Array` channel data) are `List ℚ`;
* sample rates are modelled as natural numbers (all sample rates occurring
  in the sources are integral);
* `Math.floor` on a nonnegative quotient of naturals is natural division.

Embedded components:
* `detectPitch` / `detectPitchLive` — the autocorrelation pitch estimators
  of `VoiceSlicer` and `LiveAmbientSlicer`;
* `categorizeSlice` / `categorizeSliceLive` — the slice classifiers
  (percussive-amplitude thresholds 0.1 and 0.05 respectively);
* `analyzeAndSliceAudio` — the amplitude-threshold segmenter of `VoiceSlicer`;
* `storeInsert` — the bounded slice store update `[...prev, slice].slice(-cap)`;
* `ageTick` — the once-per-second aging map;
* `triggerVolume` / `triggerVolumeB` — the ambient playback volume curves.
-/

namespace R2DJ


/-- The four slice categories of `AudioSlice['category']`. -/
inductive Category where
  | percussive
  | tonal
  | voice
  | noise
deriving DecidableEq, Repr

/-- `getCategoryColor` from the source (identical tables in both components). -/
def getCategoryColor : Category → String
  | .percussive => "#ef4444"
  | .tonal => "#3b82f6"
  | .voice => "#10b981"
  | .noise => "#8b5cf6"

/-- `categorizeSlice` from `VoiceSlicer` (percussive amplitude threshold 0.1):
priority-ordered first-match classification. -/
def categorizeSlice (amplitude pitch duration : ℚ) : Category :=
  if duration < 3/10 ∧ amplitude > 1/10 ∧ pitch < 200 then .percussive
  else if pitch > 80 ∧ pitch < 800 ∧ duration > 1/5 then .tonal
  else if pitch > 100 ∧ pitch < 500 ∧ duration > 1/10 then .voice
  else .noise

/-- `categorizeSlice` from `LiveAmbientSlicer` (percussive amplitude
threshold 0.05). -/
def categorizeSliceLive (amplitude pitch duration : ℚ) : Category :=
  if duration < 3/10 ∧ amplitude > 1/20 ∧ pitch < 200 then .percussive
  else if pitch > 80 ∧ pitch < 800 ∧ duration > 1/5 then .tonal
  else if pitch > 100 ∧ pitch < 500 ∧ duration > 1/10 then .voice
  else .noise

/-- The autocorrelation array of `detectPitch`, represented by its indexing
function: entry `lag` is `∑ audioData[i] * audioData[i + lag]` over
`i < bufferSize - lag` when `lag < bufferSize / 2`, else the untouched
initial `0` (`new Array(bufferSize).fill(0)`).  `n` is the `bufferSize`. -/
def autocorrAt (x : List ℚ) (n : ℕ) (lag : ℕ) : ℚ :=
  if 2 * lag < n then
    (List.range (n - lag)).foldl (fun acc i => acc + x.getD i 0 * x.getD (i + lag) 0) 0
  else 0

/-- The peak-search loop of `detectPitch`: scan lags `lag` with
`minLag ≤ lag`, `lag < maxLag` and `lag < n`, keeping
`(maxCorrelation, bestLag)`, updating on strictly larger correlation; then
`bestLag > 0 ? sampleRate / bestLag : 0`. -/
def pitchFromCorr (corr : ℕ → ℚ) (n : ℕ) (sampleRate : ℕ) : ℚ :=
  let minLag := sampleRate / 800
  let maxLag := sampleRate / 80
  let hi := if maxLag ≤ n then maxLag else n
  let best := (List.range' minLag (hi - minLag)).foldl
    (fun (st : ℚ × ℕ) lag => if corr lag > st.1 then (corr lag, lag) else st)
    (0, 0)
  if best.2 > 0 then (sampleRate : ℚ) / best.2 else 0

/-- `detectPitch` from `VoiceSlicer`: `bufferSize = audioData.length`. -/
def detectPitch (audioData : List ℚ) (sampleRate : ℕ) : ℚ :=
  pitchFromCorr (autocorrAt audioData audioData.length) audioData.length sampleRate

/-- `detectPitch` from `LiveAmbientSlicer`:
`bufferSize = Math.min(audioData.length, 1024)`. -/
def detectPitchLive (audioData : List ℚ) (sampleRate : ℕ) : ℚ :=
  let bufferSize := if audioData.length ≤ 1024 then audioData.length else 1024
  pitchFromCorr (autocorrAt audioData bufferSize) bufferSize sampleRate

/-- `AudioSlice` of `VoiceSlicer` (no age field); the owned buffer is the
copied sample range. -/
structure Slice where
  id : String
  data : List ℚ
  startTime : ℚ
  duration : ℚ
  amplitude : ℚ
  pitch : ℚ
  category : Category
  color : String
deriving DecidableEq, Repr

/-- Segmenter constants of `analyzeAndSliceAudio`. -/
def threshold : ℚ := 1/100

/-- Minimum slice length (0.1 s). -/
def minSliceLength : ℚ := 1/10

/-- Maximum slice length (2.0 s). -/
def maxSliceLength : ℚ := 2

/-- Slice materialization inside `analyzeAndSliceAudio`: copy the sample
range, average rectified amplitude, run the pitch estimator and the
classifier.  `i` is the scan index closing the slice, `k` the number of
slices already materialized (`slices.length`, used for the id). -/
def mkSlice (x : List ℚ) (sampleRate : ℕ) (sliceStart i k : ℕ) : Slice :=
  let sliceData := (x.drop sliceStart).take (i - sliceStart)
  let sliceDuration : ℚ := ((i : ℚ) - (sliceStart : ℚ)) / (sampleRate : ℚ)
  let avgAmplitude : ℚ :=
    (sliceData.foldl (fun sum val => sum + |val|) 0) / (sliceData.length : ℚ)
  let pitch := detectPitch sliceData sampleRate
  let category := categorizeSlice avgAmplitude pitch sliceDuration
  { id := "slice_" ++ toString k
    data := sliceData
    startTime := (sliceStart : ℚ) / (sampleRate : ℚ)
    duration := sliceDuration
    amplitude := avgAmplitude
    pitch := pitch
    category := category
    color := getCategoryColor category }

/-- Mutable scan state of `analyzeAndSliceAudio`'s boundary-finding loop. -/
structure SegState where
  sliceStart : ℕ
  inSlice : Bool
  slices : List Slice
deriving DecidableEq, Repr

/-- One iteration of the boundary-finding loop of `analyzeAndSliceAudio`
at scan index `i`. -/
def segStep (x : List ℚ) (sampleRate : ℕ) (st : SegState) (i : ℕ) : SegState :=
  let amplitude := |x.getD i 0|
  let timeInSeconds : ℚ := (i : ℚ) / (sampleRate : ℚ)
  if st.inSlice = false ∧ amplitude > threshold then
    { st with sliceStart := i, inSlice := true }
  else if st.inSlice = true ∧ (amplitude < threshold ∨
      timeInSeconds - (st.sliceStart : ℚ) / (sampleRate : ℚ) > maxSliceLength) then
    let sliceDuration : ℚ := ((i : ℚ) - (st.sliceStart : ℚ)) / (sampleRate : ℚ)
    let slices' :=
      if sliceDuration ≥ minSliceLength then
        st.slices ++ [mkSlice x sampleRate st.sliceStart i st.slices.length]
      else st.slices
    { st with slices := slices', inSlice := false }
  else st

/-- `analyzeAndSliceAudio` from `VoiceSlicer`: scan every sample index in
order and return the materialized slices. -/
def analyzeAndSliceAudio (x : List ℚ) (sampleRate : ℕ) : List Slice :=
  ((List.range x.length).foldl (segStep x sampleRate) ⟨0, false, []⟩).slices

/-- `AudioSlice` of `LiveAmbientSlicer` (with age counter). -/
structure LiveSlice where
  id : String
  data : List ℚ
  startTime : ℚ
  duration : ℚ
  amplitude : ℚ
  pitch : ℚ
  category : Category
  color : String
  age : ℕ
deriving DecidableEq, Repr

/-- JavaScript `array.slice(-cap)` for positive `cap`: the last `cap`
elements (the whole list when it is shorter). -/
def jsTakeLast (cap : ℕ) (l : List LiveSlice) : List LiveSlice :=
  l.drop (l.length - cap)

/-- The slice-store update of `processLiveAudioBuffer`:
`[...prev, slice].slice(-cap)` with `cap = 20` in one component variant and
`cap = 12` in the other. -/
def storeInsert (cap : ℕ) (prev : List LiveSlice) (s : LiveSlice) : List LiveSlice :=
  jsTakeLast cap (prev ++ [s])

/-- Inserting a sequence of slices one at a time into an initially empty
store. -/
def storeInsertAll (cap : ℕ) (xs : List LiveSlice) : List LiveSlice :=
  xs.foldl (storeInsert cap) []

/-- One one-second aging tick:
`prev.map(slice => ({...slice, age: slice.age + 1}))`. -/
def ageTick (l : List LiveSlice) : List LiveSlice :=
  l.map fun s => { s with age := s.age + 1 }

/-- `ageVolume = Math.max(0.3, 1 - slice.age / 45)` from the first
`startAmbientLoop` variant. -/
def ageVolume (age : ℕ) : ℚ := max (3/10) (1 - (age : ℚ) / 45)

/-- Category volume weights of the first `startAmbientLoop` variant. -/
def categoryVolume : Category → ℚ
  | .voice => 2/5
  | .tonal => 1/2
  | .percussive => 3/10
  | .noise => 2/5

/-- Per-trigger playback volume of the first `startAmbientLoop` variant:
`-15 + (ageVolume * categoryVolume * ambientVolume * 15)`. -/
def triggerVolume (cat : Category) (age : ℕ) (ambientVolume : ℚ) : ℚ :=
  -15 + ageVolume age * categoryVolume cat * ambientVolume * 15

/-- `ageVolume = Math.max(0.1, 1 - slice.age / 30)` from the second
`startAmbientLoop` variant. -/
def ageVolumeB (age : ℕ) : ℚ := max (1/10) (1 - (age : ℚ) / 30)

/-- Category volume weights of the second `startAmbientLoop` variant. -/
def categoryVolumeB : Category → ℚ
  | .voice => 3/10
  | _ => 1/5

/-- Per-trigger playback volume of the second `startAmbientLoop` variant:
`-20 + (ageVolume * categoryVolume * ambientVolume * 20)`. -/
def triggerVolumeB (cat : Category) (age : ℕ) (ambientVolume : ℚ) : ℚ :=
  -20 + ageVolumeB age * categoryVolumeB cat * ambientVolume * 20


/-- Scan invariant of the segmenter loop after processing sample indices
`0, …, n-1`. -/
def SegInv (sr : ℕ) (n : ℕ) (st : SegState) : Prop :=
  (st.inSlice = true →
    st.sliceStart < n ∧
    ((n : ℚ) - 1 - (st.sliceStart : ℚ)) / (sr : ℚ) ≤ maxSliceLength) ∧
  ∀ s ∈ st.slices,
    minSliceLength ≤ s.duration ∧ s.duration ≤ maxSliceLength + 1 / (sr : ℚ) ∧
    s.startTime + s.duration ≤ ((n : ℚ) - 1) / (sr : ℚ)


def burstPattern : List ℚ := [3/10, 3/10, 3/10, -(3/10), -(3/10)]

def tonePattern : List ℚ := [1/10, 1/10, -(1/10)]

def repeatList (p : List ℚ) (k : ℕ) : List ℚ := (List.replicate k p).flatten

def burstData : List ℚ := repeatList burstPattern 27

def toneData : List ℚ := repeatList tonePattern 120

def c2Frame : List ℚ :=
  repeatList burstPattern 9 ++ List.replicate 45 0 ++ toneData ++ List.replicate 5 0

def c2FrameAmended : List ℚ :=
  burstData ++ List.replicate 45 0 ++ toneData ++ List.replicate 5 0


/-- Table of the autocorrelation values of the 400 ms tone slice at the
searched lags 1–10. -/
def toneCorrVal : ℕ → ℚ
  | 1 => -(119/100)
  | 2 => -(6/5)
  | 3 => 357/100
  | 4 => -(59/50)
  | 5 => -(119/100)
  | 6 => 177/50
  | 7 => -(117/100)
  | 8 => -(59/50)
  | 9 => 351/100
  | 10 => -(29/25)
  | _ => 0

/-- Table of the autocorrelation values of the 150 ms burst slice at the
searched lags 1–10. -/
def burstCorrVal : ℕ → ℚ
  | 1 => 63/25
  | 2 => -(711/100)
  | 3 => -(36/5)
  | 4 => 9/4
  | 5 => 117/10
  | 6 => 243/100
  | 7 => -(171/25)
  | 8 => -(693/100)
  | 9 => 54/25
  | 10 => 45/4
  | _ => 0


def amendedSlice0 : Slice := mkSlice c2FrameAmended 900 0 135 0

def amendedSlice1 : Slice := mkSlice c2FrameAmended 900 180 540 1

def claimedSlice0 : Slice := mkSlice c2Frame 900 90 450 0

def tinyTonePattern : List ℚ := [1/1000000, 1/1000000, -(1/1000000)]

def tinyToneData : List ℚ := repeatList tinyTonePattern 12

def defaultLiveSlice : LiveSlice :=
  ⟨"", [], 0, 0, 0, 0, Category.noise, "", 0⟩

lemma storeInsert_foldl (cap : ℕ) : ∀ (xs acc : List LiveSlice), acc.length ≤ cap →
    xs.foldl (storeInsert cap) acc = (acc ++ xs).drop ((acc ++ xs).length - cap) := by
  intro xs
  induction xs with
  | nil =>
    intro acc h
    simp [Nat.sub_eq_zero_of_le h]
  | cons x xs ih =>
    intro acc h
    rw [List.foldl_cons]
    have hlen : (storeInsert cap acc x).length ≤ cap := by
      simp only [storeInsert, jsTakeLast, List.length_drop, List.length_append,
        List.length_singleton]
      omega
    rw [ih _ hlen]
    have hd : storeInsert cap acc x =
        (acc ++ [x]).drop ((acc ++ [x]).length - cap) := rfl
    have hle : (acc ++ [x]).length - cap ≤ (acc ++ [x]).length := Nat.sub_le _ _
    rw [hd, ← List.drop_append_of_le_length hle, List.drop_drop, List.append_assoc,
      List.singleton_append]
    congr 1
    simp only [List.length_drop, List.length_append, List.length_singleton,
      List.length_cons, List.length_nil]
    omega


lemma pitchSearch_inv (corr : ℕ → ℚ) (lo hi : ℕ) :
    ∀ (lags : List ℕ), (∀ l ∈ lags, lo ≤ l ∧ l < hi) →
    ∀ st : ℚ × ℕ, (st.2 = 0 ∨ (lo ≤ st.2 ∧ 1 ≤ st.2 ∧ st.2 < hi)) →
    (lags.foldl (fun st lag => if corr lag > st.1 then (corr lag, lag) else st) st).2 = 0 ∨
      (lo ≤ (lags.foldl (fun st lag => if corr lag > st.1 then (corr lag, lag) else st) st).2 ∧
        1 ≤ (lags.foldl (fun st lag => if corr lag > st.1 then (corr lag, lag) else st) st).2 ∧
        (lags.foldl (fun st lag => if corr lag > st.1 then (corr lag, lag) else st) st).2 < hi) := by
  intro lags
  induction lags with
  | nil => intro _ st hst; simpa using hst
  | cons lag lags ih =>
    intro hmem st hst
    rw [List.foldl_cons]
    apply ih (fun l hl => hmem l (List.mem_cons_of_mem _ hl))
    by_cases hc : corr lag > st.1
    · rw [if_pos hc]
      rcases Nat.eq_zero_or_pos lag with h0 | h1
      · exact Or.inl h0
      · exact Or.inr ⟨(hmem lag (List.mem_cons_self _ _)).1, h1,
          (hmem lag (List.mem_cons_self _ _)).2⟩
    · rw [if_neg hc]; exact hst

lemma segStep_inv (x : List ℚ) (sr : ℕ) (hsr : 0 < sr) (st : SegState) (i : ℕ)
    (h : SegInv sr i st) : SegInv sr (i + 1) (segStep x sr st i) := by
  have hsrq : (0 : ℚ) < (sr : ℚ) := by exact_mod_cast hsr
  obtain ⟨hin, hsl⟩ := h
  have hmono : ∀ s ∈ st.slices,
      minSliceLength ≤ s.duration ∧ s.duration ≤ maxSliceLength + 1 / (sr : ℚ) ∧
      s.startTime + s.duration ≤ (((i + 1 : ℕ) : ℚ) - 1) / (sr : ℚ) := by
    intro s hs
    refine ⟨(hsl s hs).1, (hsl s hs).2.1, le_trans (hsl s hs).2.2 ?_⟩
    have : (i : ℚ) - 1 ≤ ((i + 1 : ℕ) : ℚ) - 1 := by push_cast; linarith
    gcongr
  rw [segStep]
  split_ifs with h1 h2
  · -- open a new slice at i
    refine ⟨fun _ => ⟨Nat.lt_succ_self i, ?_⟩, hmono⟩
    have : (((i + 1 : ℕ) : ℚ) - 1 - (i : ℚ)) = 0 := by push_cast; ring
    rw [this, zero_div]
    norm_num [maxSliceLength]
  · -- close the current slice at i
    obtain ⟨hstart, helapsed⟩ := hin h2.1
    constructor
    · intro hfalse
      simp at hfalse
    · intro s hs
      simp only at hs
      split_ifs at hs with hdur
      · rcases List.mem_append.mp hs with hold | hnew
        · exact hmono s hold
        · have hseq : s = mkSlice x sr st.sliceStart i st.slices.length :=
            List.mem_singleton.mp hnew
          have hsdur : s.duration = ((i : ℚ) - (st.sliceStart : ℚ)) / (sr : ℚ) := by
            rw [hseq]; rfl
          have hsstart : s.startTime = ((st.sliceStart : ℕ) : ℚ) / (sr : ℚ) := by
            rw [hseq]; rfl
          refine ⟨?_, ?_, ?_⟩
          · rw [hsdur]; exact hdur
          · rw [hsdur]
            have hsplit : ((i : ℚ) - (st.sliceStart : ℚ)) / (sr : ℚ) =
                ((i : ℚ) - 1 - (st.sliceStart : ℚ)) / (sr : ℚ) + 1 / (sr : ℚ) := by
              ring
            rw [hsplit]
            gcongr
          · rw [hsdur, hsstart]
            have : ((st.sliceStart : ℕ) : ℚ) / (sr : ℚ) +
                ((i : ℚ) - (st.sliceStart : ℚ)) / (sr : ℚ) = (i : ℚ) / (sr : ℚ) := by
              ring
            rw [this]
            have : (i : ℚ) = ((i + 1 : ℕ) : ℚ) - 1 := by push_cast; ring
            rw [← this]
      · exact hmono s hs
  · -- no boundary event at i
    constructor
    · intro htrue
      obtain ⟨hstart, helapsed⟩ := hin htrue
      refine ⟨Nat.lt_succ_of_lt hstart, ?_⟩
      have hnoclose : ¬((|x.getD i 0|) < threshold ∨
          (i : ℚ) / (sr : ℚ) - (st.sliceStart : ℚ) / (sr : ℚ) > maxSliceLength) := by
        intro hc
        exact h2 ⟨htrue, hc⟩
      push_neg at hnoclose
      have helapsed' : (i : ℚ) / (sr : ℚ) - (st.sliceStart : ℚ) / (sr : ℚ) ≤
          maxSliceLength := hnoclose.2
      have : (((i + 1 : ℕ) : ℚ) - 1 - (st.sliceStart : ℚ)) / (sr : ℚ) =
          (i : ℚ) / (sr : ℚ) - (st.sliceStart : ℚ) / (sr : ℚ) := by
        push_cast; ring
      rw [this]
      exact helapsed'
    · exact hmono

lemma segFold_inv (x : List ℚ) (sr : ℕ) (hsr : 0 < sr) :
    ∀ n : ℕ, SegInv sr n ((List.range n).foldl (segStep x sr) ⟨0, false, []⟩) := by
  intro n
  induction n with
  | zero =>
    constructor
    · intro hfalse; simp at hfalse
    · intro s hs; simp at hs
  | succ n ih =>
    rw [List.range_succ, List.foldl_append, List.foldl_cons, List.foldl_nil]
    exact segStep_inv x sr hsr _ n ih

lemma foldl_add_eq_sum (f : ℕ → ℚ) : ∀ (l : List ℕ) (a : ℚ),
    l.foldl (fun acc i => acc + f i) a = a + (l.map f).sum := by
  intro l
  induction l with
  | nil => intro a; simp
  | cons x l ih => intro a; simp [ih, add_assoc]

lemma foldl_abs_eq_sum : ∀ (l : List ℚ) (a : ℚ),
    l.foldl (fun sum val => sum + |val|) a = a + (l.map (fun v => |v|)).sum := by
  intro l
  induction l with
  | nil => intro a; simp
  | cons x l ih => intro a; simp [ih, add_assoc]

lemma repeatList_getD (p : List ℚ) :
    ∀ (k i : ℕ), i < k * p.length → (repeatList p k).getD i 0 = p.getD (i % p.length) 0 := by
  intro k
  induction k with
  | zero => intro i h; omega
  | succ k ih =>
    intro i h
    rw [repeatList, List.replicate_succ, List.flatten_cons]
    by_cases hi : i < p.length
    · rw [List.getD_append _ _ _ _ hi, Nat.mod_eq_of_lt hi]
    · push_neg at hi
      rw [List.getD_append_right _ _ _ _ hi]
      have hklen : (k + 1) * p.length = k * p.length + p.length := by ring
      rw [hklen] at h
      have : i - p.length < k * p.length := by omega
      rw [← repeatList, ih _ this]
      congr 1
      conv_lhs => rw [show i - p.length = i - p.length from rfl]
      have hsub : i = (i - p.length) + p.length := by omega
      conv_rhs => rw [hsub]
      rw [Nat.add_mod_right]

lemma periodic_range_sum (h : ℕ → ℚ) (P : ℕ) (hper : ∀ i, h (i + P) = h i) :
    ∀ (q r : ℕ), ((List.range (q * P + r)).map h).sum =
      q * ((List.range P).map h).sum + ((List.range r).map h).sum := by
  intro q
  induction q with
  | zero => intro r; simp
  | succ q ih =>
    intro r
    have hsplit : (q + 1) * P + r = P + (q * P + r) := by ring
    rw [hsplit, List.range_add, List.map_append, List.sum_append, List.map_map]
    have hshift : ((List.range (q * P + r)).map (h ∘ (P + ·))).sum =
        ((List.range (q * P + r)).map h).sum := by
      congr 1
      apply List.map_eq_map_iff.mpr
      intro i _
      simp only [Function.comp_apply]
      rw [Nat.add_comm P i, hper]
    rw [hshift, ih]
    push_cast
    ring


lemma autocorr_repeatList (pat : List ℚ) (k lag n : ℕ)
    (hn : n = k * pat.length) (hlag : 2 * lag < n)
    (hlagn : lag ≤ n) :
    autocorrAt (repeatList pat k) n lag =
      (((n - lag) / pat.length : ℕ) : ℚ) *
        ((List.range pat.length).map
          (fun j => pat.getD (j % pat.length) 0 * pat.getD ((j + lag) % pat.length) 0)).sum +
      ((List.range ((n - lag) % pat.length)).map
        (fun j => pat.getD (j % pat.length) 0 * pat.getD ((j + lag) % pat.length) 0)).sum := by
  rw [autocorrAt, if_pos hlag, foldl_add_eq_sum, zero_add]
  have hcong : (List.range (n - lag)).map
      (fun i => (repeatList pat k).getD i 0 * (repeatList pat k).getD (i + lag) 0) =
      (List.range (n - lag)).map
      (fun j => pat.getD (j % pat.length) 0 * pat.getD ((j + lag) % pat.length) 0) := by
    apply List.map_eq_map_iff.mpr
    intro i hi
    have hi' : i < n - lag := List.mem_range.mp hi
    rw [repeatList_getD pat k i (by omega), repeatList_getD pat k (i + lag) (by omega)]
  rw [hcong]
  have hper : ∀ i,
      pat.getD ((i + pat.length) % pat.length) 0 *
        pat.getD ((i + pat.length + lag) % pat.length) 0 =
      pat.getD (i % pat.length) 0 * pat.getD ((i + lag) % pat.length) 0 := by
    intro i
    rw [Nat.add_mod_right]
    congr 2
    rw [show i + pat.length + lag = i + lag + pat.length from by ring, Nat.add_mod_right]
  have hdm : n - lag = ((n - lag) / pat.length) * pat.length + (n - lag) % pat.length := by
    rw [Nat.mul_comm]
    exact (Nat.div_add_mod _ _).symm
  conv_lhs => rw [hdm]
  rw [periodic_range_sum _ pat.length hper]

lemma toneData_length : toneData.length = 360 := by
  rw [toneData, repeatList, List.length_flatten]
  simp [tonePattern]

lemma burstData_length : burstData.length = 135 := by
  rw [burstData, repeatList, List.length_flatten]
  simp [burstPattern]

lemma toneCorr (lag : ℕ) (hlag : 1 ≤ lag) (hlag10 : lag ≤ 10) :
    autocorrAt toneData 360 lag =
      (((360 - lag) / 3 : ℕ) : ℚ) *
        ((List.range 3).map
          (fun j => tonePattern.getD (j % 3) 0 * tonePattern.getD ((j + lag) % 3) 0)).sum +
      ((List.range ((360 - lag) % 3)).map
        (fun j => tonePattern.getD (j % 3) 0 * tonePattern.getD ((j + lag) % 3) 0)).sum := by
  have := autocorr_repeatList tonePattern 120 lag 360 (by rw [show tonePattern.length = 3 from rfl])
    (by omega) (by omega)
  rw [show tonePattern.length = 3 from rfl] at this
  exact this

set_option maxRecDepth 40000 in
lemma toneCorr_val : ∀ lag ∈ List.range' 1 10 1, autocorrAt toneData 360 lag = toneCorrVal lag := by
  intro lag hl
  have hb := List.mem_range'_1.mp hl
  have h1 : 1 ≤ lag := hb.1
  have h2 : lag < 11 := hb.2
  interval_cases lag <;>
    (rw [toneCorr _ (by omega) (by omega)]; with_unfolding_all decide)

lemma burstCorr (lag : ℕ) (hlag : 1 ≤ lag) (hlag10 : lag ≤ 10) :
    autocorrAt burstData 135 lag =
      (((135 - lag) / 5 : ℕ) : ℚ) *
        ((List.range 5).map
          (fun j => burstPattern.getD (j % 5) 0 * burstPattern.getD ((j + lag) % 5) 0)).sum +
      ((List.range ((135 - lag) % 5)).map
        (fun j => burstPattern.getD (j % 5) 0 * burstPattern.getD ((j + lag) % 5) 0)).sum := by
  have := autocorr_repeatList burstPattern 27 lag 135
    (by rw [show burstPattern.length = 5 from rfl])
    (by omega) (by omega)
  rw [show burstPattern.length = 5 from rfl] at this
  exact this

set_option maxRecDepth 40000 in
lemma burstCorr_val : ∀ lag ∈ List.range' 1 10 1, autocorrAt burstData 135 lag = burstCorrVal lag := by
  intro lag hl
  have hb := List.mem_range'_1.mp hl
  have h1 : 1 ≤ lag := hb.1
  have h2 : lag < 11 := hb.2
  interval_cases lag <;>
    (rw [burstCorr _ (by omega) (by omega)]; with_unfolding_all decide)

lemma foldl_search_congr (f g : ℕ → ℚ) : ∀ (l : List ℕ), (∀ a ∈ l, f a = g a) →
    ∀ st : ℚ × ℕ,
    l.foldl (fun st lag => if f lag > st.1 then (f lag, lag) else st) st =
    l.foldl (fun st lag => if g lag > st.1 then (g lag, lag) else st) st := by
  intro l
  induction l with
  | nil => intro _ st; rfl
  | cons x l ih =>
    intro h st
    rw [List.foldl_cons, List.foldl_cons, h x (List.mem_cons_self _ _)]
    exact ih (fun a ha => h a (List.mem_cons_of_mem _ ha)) _

set_option maxRecDepth 200000 in
lemma detectPitch_toneData : detectPitch toneData 900 = 300 := by
  rw [detectPitch, toneData_length, pitchFromCorr]
  rw [show (900 : ℕ) / 800 = 1 by norm_num, show (900 : ℕ) / 80 = 11 by norm_num]
  rw [show (if (11 : ℕ) ≤ 360 then (11 : ℕ) else 360) = 11 by norm_num,
    show (11 : ℕ) - 1 = 10 by norm_num]
  rw [foldl_search_congr _ toneCorrVal _ toneCorr_val]
  with_unfolding_all decide

set_option maxRecDepth 200000 in
lemma detectPitch_burstData : detectPitch burstData 900 = 180 := by
  rw [detectPitch, burstData_length, pitchFromCorr]
  rw [show (900 : ℕ) / 800 = 1 by norm_num, show (900 : ℕ) / 80 = 11 by norm_num]
  rw [show (if (11 : ℕ) ≤ 135 then (11 : ℕ) else 135) = 11 by norm_num,
    show (11 : ℕ) - 1 = 10 by norm_num]
  rw [foldl_search_congr _ burstCorrVal _ burstCorr_val]
  with_unfolding_all decide


lemma repeatList_map_sum (pat : List ℚ) (k : ℕ) (f : ℚ → ℚ) :
    ((repeatList pat k).map f).sum = (k : ℚ) * (pat.map f).sum := by
  rw [repeatList, List.map_flatten, List.map_replicate, List.sum_flatten,
    List.map_replicate, List.sum_replicate, nsmul_eq_mul]

lemma toneData_abs_sum : (toneData.map (fun v => |v|)).sum = 36 := by
  rw [toneData, repeatList_map_sum]
  norm_num [tonePattern, abs_of_nonneg]

lemma burstData_abs_sum : (burstData.map (fun v => |v|)).sum = 81/2 := by
  rw [burstData, repeatList_map_sum]
  norm_num [burstPattern, abs_of_nonneg]

lemma c2FrameAmended_take : (c2FrameAmended.drop 0).take 135 = burstData := by
  rw [List.drop_zero, c2FrameAmended, List.append_assoc, List.append_assoc,
    show (135 : ℕ) = burstData.length from burstData_length.symm, List.take_left]

lemma c2FrameAmended_drop : (c2FrameAmended.drop 180).take 360 = toneData := by
  rw [c2FrameAmended, List.append_assoc,
    show (180 : ℕ) = (burstData ++ List.replicate 45 (0:ℚ)).length from by
      simp [burstData_length],
    List.drop_left, show (360 : ℕ) = toneData.length from toneData_length.symm,
    List.take_left]

lemma c2Frame_drop : (c2Frame.drop 90).take 360 = toneData := by
  rw [c2Frame, List.append_assoc,
    show (90 : ℕ) = (repeatList burstPattern 9 ++ List.replicate 45 (0:ℚ)).length from by
      simp [repeatList, burstPattern],
    List.drop_left, show (360 : ℕ) = toneData.length from toneData_length.symm,
    List.take_left]

set_option maxRecDepth 1000000 in
lemma scanAmended1 : (List.range' 0 200 1).foldl (segStep c2FrameAmended 900) ⟨0, false, []⟩ =
    ⟨180, true, [amendedSlice0]⟩ := by
  with_unfolding_all rfl

set_option maxRecDepth 1000000 in
lemma scanAmended2 : (List.range' 200 200 1).foldl (segStep c2FrameAmended 900)
    ⟨180, true, [amendedSlice0]⟩ = ⟨180, true, [amendedSlice0]⟩ := by
  with_unfolding_all rfl

set_option maxRecDepth 1000000 in
lemma scanAmended3 : (List.range' 400 145 1).foldl (segStep c2FrameAmended 900)
    ⟨180, true, [amendedSlice0]⟩ = ⟨180, false, [amendedSlice0, amendedSlice1]⟩ := by
  with_unfolding_all rfl


set_option maxRecDepth 1000000 in
lemma scanClaimed1 : (List.range' 0 200 1).foldl (segStep c2Frame 900) ⟨0, false, []⟩ =
    ⟨90, true, []⟩ := by
  with_unfolding_all rfl

set_option maxRecDepth 1000000 in
lemma scanClaimed2 : (List.range' 200 200 1).foldl (segStep c2Frame 900) ⟨90, true, []⟩ =
    ⟨90, true, []⟩ := by
  with_unfolding_all rfl

set_option maxRecDepth 1000000 in
lemma scanClaimed3 : (List.range' 400 55 1).foldl (segStep c2Frame 900) ⟨90, true, []⟩ =
    ⟨90, false, [claimedSlice0]⟩ := by
  with_unfolding_all rfl

lemma c2FrameAmended_length : c2FrameAmended.length = 545 := by
  simp [c2FrameAmended, burstData_length, toneData_length]

lemma c2Frame_length : c2Frame.length = 455 := by
  simp [c2Frame, toneData_length, repeatList, burstPattern]

lemma range_split_545 :
    List.range 545 = List.range' 0 200 1 ++ List.range' 200 200 1 ++ List.range' 400 145 1 := by
  rw [List.range_eq_range' 545]
  have h1 := List.range'_append 0 200 200 1
  have h2 := List.range'_append 0 400 145 1
  norm_num at h1 h2
  rw [← h2, ← h1]

lemma range_split_455 :
    List.range 455 = List.range' 0 200 1 ++ List.range' 200 200 1 ++ List.range' 400 55 1 := by
  rw [List.range_eq_range' 455]
  have h1 := List.range'_append 0 200 200 1
  have h2 := List.range'_append 0 400 55 1
  norm_num at h1 h2
  rw [← h2, ← h1]

lemma scan_amended : analyzeAndSliceAudio c2FrameAmended 900 = [amendedSlice0, amendedSlice1] := by
  rw [analyzeAndSliceAudio, c2FrameAmended_length, range_split_545,
    List.foldl_append, List.foldl_append, scanAmended1, scanAmended2, scanAmended3]

lemma scan_claimed : analyzeAndSliceAudio c2Frame 900 = [claimedSlice0] := by
  rw [analyzeAndSliceAudio, c2Frame_length, range_split_455,
    List.foldl_append, List.foldl_append, scanClaimed1, scanClaimed2, scanClaimed3]


lemma amendedSlice0_category : amendedSlice0.category = Category.percussive := by
  rw [amendedSlice0, mkSlice]
  simp only [show (135 - 0 : ℕ) = 135 from by norm_num, c2FrameAmended_take,
    foldl_abs_eq_sum, burstData_abs_sum, burstData_length, detectPitch_burstData]
  norm_num
  with_unfolding_all decide

lemma amendedSlice0_duration : amendedSlice0.duration = 3/20 := by
  rw [amendedSlice0, mkSlice]
  norm_num

lemma amendedSlice1_category : amendedSlice1.category = Category.tonal := by
  rw [amendedSlice1, mkSlice]
  simp only [show (540 - 180 : ℕ) = 360 from by norm_num, c2FrameAmended_drop,
    foldl_abs_eq_sum, toneData_abs_sum, toneData_length, detectPitch_toneData]
  norm_num
  with_unfolding_all decide

lemma amendedSlice1_duration : amendedSlice1.duration = 2/5 := by
  rw [amendedSlice1, mkSlice]
  norm_num


lemma getD_replicate_zero : ∀ (n i : ℕ), (List.replicate n (0 : ℚ)).getD i 0 = 0 := by
  intro n
  induction n with
  | zero => intro i; simp
  | succ n ih =>
    intro i
    cases i with
    | zero => simp
    | succ i => simp only [List.replicate_succ, List.getD_cons_succ]; exact ih i

lemma autocorr_zeros (n m lag : ℕ) : autocorrAt (List.replicate n 0) m lag = 0 := by
  rw [autocorrAt]
  split
  · rw [foldl_add_eq_sum, zero_add]
    apply List.sum_eq_zero
    intro v hv
    obtain ⟨i, _, rfl⟩ := List.mem_map.mp hv
    rw [getD_replicate_zero, getD_replicate_zero, mul_zero]
  · rfl

lemma searchFold_zero (corr : ℕ → ℚ) (hc : ∀ lag, corr lag = 0) : ∀ (l : List ℕ),
    l.foldl (fun st lag => if corr lag > st.1 then (corr lag, lag) else st)
      ((0 : ℚ), (0 : ℕ)) = (0, 0) := by
  intro l
  induction l with
  | nil => rfl
  | cons x l ih =>
    rw [List.foldl_cons]
    have : ¬(corr x > ((0 : ℚ), (0 : ℕ)).1) := by rw [hc x]; simp
    rw [if_neg this]
    exact ih

/-- C1 (amended): every Slice the Segmenter emits has duration at least
`minSliceLength` and at most `maxSliceLength + 1/sampleRate`.  The claim's
upper bound `maxSliceLength` itself does not hold: the length cut fires at
the first scan index whose elapsed time strictly exceeds `maxSliceLength`,
so the emitted duration can overshoot the bound by up to one sample
period (see the counterexample). -/
theorem c1_duration_bounds : ∀ (x : List ℚ) (sr : ℕ) (d : ℚ), 0 < sr →
    d ∈ (analyzeAndSliceAudio x sr).map Slice.duration →
    minSliceLength ≤ d ∧ d ≤ maxSliceLength + 1 / (sr : ℚ) := by
  intro x sr d hsr hd
  obtain ⟨s, hs, hdur⟩ := List.mem_map.mp hd
  have := (segFold_inv x sr hsr x.length).2 s hs
  rw [← hdur] at *
  exact ⟨this.1, this.2.1⟩

set_option maxRecDepth 1000000 in
/-- C1 witness: the duration 21/10 emitted on a 22-sample all-loud frame at
sample rate 10 satisfies the amended bounds. -/
theorem c1_duration_bounds_witness : 0 < 10 ∧
    (21 : ℚ)/10 ∈ (analyzeAndSliceAudio (List.replicate 22 (1/2)) 10).map Slice.duration ∧
    (minSliceLength ≤ 21/10 ∧ (21 : ℚ)/10 ≤ maxSliceLength + 1 / ((10 : ℕ) : ℚ)) :=
  ⟨by norm_num, by with_unfolding_all decide,
    c1_duration_bounds (List.replicate 22 (1/2)) 10 (21/10) (by norm_num) (by with_unfolding_all decide)⟩

set_option maxRecDepth 1000000 in
/-- C1 counterexample: a frame of 22 samples of amplitude 0.5 at sample
rate 10 makes the Segmenter emit one slice of duration 2.1 s, which is
strictly greater than `maxSliceLength = 2.0`. -/
theorem c1_duration_bounds_counterexample :
    (analyzeAndSliceAudio (List.replicate 22 (1/2)) 10).map Slice.duration = [21/10] ∧
    ¬((21 : ℚ)/10 ≤ maxSliceLength) := by
  with_unfolding_all decide

/-- C2 (amended): a 50 ms burst is shorter than `minSliceLength` (0.1 s)
and is silently discarded, so the frame exactly as described in the claim
yields 1 slice, not 2.  With the burst lengthened to 150 ms (at least
`minSliceLength`), the frame yields exactly 2 slices: one `percussive`
(duration 3/20 s) and one `tonal` (duration 2/5 s), each inside the
configured bounds.  Frame layout at 900 Hz: 135-sample 180 Hz burst of
amplitude 0.3, 45 samples of silence, 360-sample 300 Hz tone of amplitude
0.1, trailing silence. -/
theorem c2_end_to_end :
    (analyzeAndSliceAudio c2FrameAmended 900).map (fun s => (s.category, s.duration)) =
      [(Category.percussive, 3/20), (Category.tonal, 2/5)] ∧
    (minSliceLength ≤ 3/20 ∧ (3 : ℚ)/20 ≤ maxSliceLength) ∧
    (minSliceLength ≤ 2/5 ∧ (2 : ℚ)/5 ≤ maxSliceLength) ∧
    (analyzeAndSliceAudio c2Frame 900).length = 1 := by
  refine ⟨?_, by norm_num [minSliceLength, maxSliceLength],
    by norm_num [minSliceLength, maxSliceLength], ?_⟩
  · rw [scan_amended, List.map_cons, List.map_cons, List.map_nil,
      amendedSlice0_category, amendedSlice0_duration,
      amendedSlice1_category, amendedSlice1_duration]
  · rw [scan_claimed]
    rfl

/-- C2 counterexample: the frame with the claimed 50 ms burst (amplitude
0.3, 180 Hz), silence, and a 400 ms 300 Hz tone of amplitude 0.1 yields
exactly 1 slice, not the claimed 2: the burst candidate's duration 0.05 s
is below `minSliceLength` and is discarded. -/

theorem c2_end_to_end_counterexample : (analyzeAndSliceAudio c2Frame 900).length = 1 ∧ (1 : ℕ) ≠ 2 := by
  constructor
  · rw [scan_claimed]
    rfl
  · decide

/-- C3: classifier rules apply in priority order with first match winning.
The input (amplitude 0.2, pitch 150, duration 0.1) classifies `percussive`
in both classifier variants, and every input satisfying the percussive
test (duration < 0.3, amplitude above the variant's percussive threshold,
pitch < 200) is classified `percussive` regardless of the other rules. -/

theorem c3_priority_ordering :
    (categorizeSlice (1/5) 150 (1/10) = .percussive ∧
      categorizeSliceLive (1/5) 150 (1/10) = .percussive) ∧
    (∀ a p d : ℚ, d < 3/10 → a > 1/10 → p < 200 →
      categorizeSlice a p d = .percussive) ∧
    (∀ a p d : ℚ, d < 3/10 → a > 1/20 → p < 200 →
      categorizeSliceLive a p d = .percussive) := by
  refine ⟨⟨?_, ?_⟩, ?_, ?_⟩
  · with_unfolding_all decide
  · with_unfolding_all decide
  · intro a p d h1 h2 h3
    rw [categorizeSlice, if_pos ⟨h1, h2, h3⟩]
  · intro a p d h1 h2 h3
    rw [categorizeSliceLive, if_pos ⟨h1, h2, h3⟩]

/-- C3 witness: the percussive rule fires at (0.2, 150, 0.25), an input
that also satisfies the tonal test. -/
theorem c3_priority_ordering_witness :
    ((1:ℚ)/4 < 3/10 ∧ (1:ℚ)/5 > 1/10 ∧ (150:ℚ) < 200 ∧ (1:ℚ)/5 > 1/20) ∧
    categorizeSlice (1/5) 150 (1/4) = Category.percussive ∧
    categorizeSliceLive (1/5) 150 (1/4) = Category.percussive :=
  ⟨by norm_num,
    c3_priority_ordering.2.1 (1/5) 150 (1/4) (by norm_num) (by norm_num) (by norm_num),
    c3_priority_ordering.2.2 (1/5) 150 (1/4) (by norm_num) (by norm_num) (by norm_num)⟩

/-- C4: after inserting `capacity + k` slices one at a time into the empty
Slice Store, the store holds exactly `capacity` entries and they are the
most-recently-inserted ones in insertion order, for both the capacity-20
and the capacity-12 variant of `processLiveAudioBuffer`. -/
theorem c4_store_fifo_capacity : ∀ xs : List LiveSlice,
    (20 ≤ xs.length →
      (storeInsertAll 20 xs).length = 20 ∧
      storeInsertAll 20 xs = xs.drop (xs.length - 20)) ∧
    (12 ≤ xs.length →
      (storeInsertAll 12 xs).length = 12 ∧
      storeInsertAll 12 xs = xs.drop (xs.length - 12)) := by
  intro xs
  constructor <;> intro h <;>
    rw [storeInsertAll, storeInsert_foldl _ xs [] (by simp)] <;>
    simp only [List.nil_append, List.length_drop] <;>
    exact ⟨by omega, trivial⟩

/-- C4 witness: inserting 21 (resp. 13) slices leaves exactly the last 20
(resp. 12). -/
theorem c4_store_fifo_capacity_witness :
    (20 ≤ (List.replicate 21 defaultLiveSlice).length ∧
      (storeInsertAll 20 (List.replicate 21 defaultLiveSlice)).length = 20 ∧
      storeInsertAll 20 (List.replicate 21 defaultLiveSlice) =
        (List.replicate 21 defaultLiveSlice).drop
          ((List.replicate 21 defaultLiveSlice).length - 20)) ∧
    (12 ≤ (List.replicate 13 defaultLiveSlice).length ∧
      (storeInsertAll 12 (List.replicate 13 defaultLiveSlice)).length = 12 ∧
      storeInsertAll 12 (List.replicate 13 defaultLiveSlice) =
        (List.replicate 13 defaultLiveSlice).drop
          ((List.replicate 13 defaultLiveSlice).length - 12)) :=
  ⟨⟨by simp, (c4_store_fifo_capacity (List.replicate 21 defaultLiveSlice)).1 (by simp)⟩,
    ⟨by simp, (c4_store_fifo_capacity (List.replicate 13 defaultLiveSlice)).2 (by simp)⟩⟩

/-- C5 (amended): the Pitch Estimator returns 0 or `sampleRate / lag` for
some searched lag (`1 ≤ lag`, `sampleRate/800 ≤ lag < sampleRate/80`);
such a nonzero return is always strictly above 80 Hz, but because the
minimum lag is floored it can exceed 800 Hz (the claim's upper bound
fails, see the counterexample). -/
theorem c5_pitch_range : ∀ (x : List ℚ) (sr : ℕ), 0 < sr →
    detectPitch x sr = 0 ∨
    ∃ lag : ℕ, 1 ≤ lag ∧ sr / 800 ≤ lag ∧ lag < sr / 80 ∧
      detectPitch x sr = (sr : ℚ) / (lag : ℚ) ∧ 80 < detectPitch x sr := by
  intro x sr hsr
  rw [detectPitch, pitchFromCorr]
  set n := x.length with hn
  set minLag := sr / 800 with hminLag
  set maxLag := sr / 80 with hmaxLag
  set hi := if maxLag ≤ n then maxLag else n with hhi
  set best := (List.range' minLag (hi - minLag)).foldl
    (fun (st : ℚ × ℕ) lag =>
      if autocorrAt x n lag > st.1 then (autocorrAt x n lag, lag) else st)
    (0, 0) with hbest
  have hmem : ∀ l ∈ List.range' minLag (hi - minLag), minLag ≤ l ∧ l < hi := by
    intro l hl
    have := List.mem_range'_1.mp hl
    omega
  have hinv := pitchSearch_inv (autocorrAt x n) minLag hi _ hmem (0, 0) (Or.inl rfl)
  rw [← hbest] at hinv
  rcases hinv with h0 | ⟨hlo, h1, hhi'⟩
  · rw [h0]
    simp
  · have hpos : best.2 > 0 := h1
    rw [if_pos hpos]
    have hlagmax : best.2 < maxLag := by
      have : hi ≤ maxLag := by rw [hhi]; split <;> omega
      omega
    refine Or.inr ⟨best.2, h1, hlo, hlagmax, rfl, ?_⟩
    have h80 : 80 * (best.2 + 1) ≤ 80 * (sr / 80) := by
      apply Nat.mul_le_mul_left
      omega
    have hdiv : 80 * (sr / 80) ≤ sr := Nat.mul_div_le sr 80
    have hlt : 80 * best.2 < sr := by omega
    have hq : (80 : ℚ) * (best.2 : ℚ) < (sr : ℚ) := by exact_mod_cast hlt
    have hlagpos : (0 : ℚ) < (best.2 : ℚ) := by exact_mod_cast h1
    rw [lt_div_iff₀ hlagpos]
    linarith

/-- C5 witness: the amended range statement instantiated at the frame
[1,1,1,1] with sample rate 1000. -/
theorem c5_pitch_range_witness : 0 < 1000 ∧
    (detectPitch [1, 1, 1, 1] 1000 = 0 ∨
      ∃ lag : ℕ, 1 ≤ lag ∧ 1000 / 800 ≤ lag ∧ lag < 1000 / 80 ∧
        detectPitch [1, 1, 1, 1] 1000 = (1000 : ℚ) / (lag : ℚ) ∧
        80 < detectPitch [1, 1, 1, 1] 1000) :=
  ⟨by norm_num, c5_pitch_range [1, 1, 1, 1] 1000 (by norm_num)⟩

set_option maxRecDepth 100000 in
/-- C5 counterexample: on the frame [1,1,1,1] at sample rate 1000 the
estimator returns 1000 Hz, outside the claimed 80–800 Hz range (the
argmax lag is `minLag = floor(1000/800) = 1`). -/
theorem c5_pitch_range_counterexample : detectPitch [1, 1, 1, 1] 1000 = 1000 ∧ ¬((1000 : ℚ) ≤ 800) := by
  with_unfolding_all decide

set_option maxRecDepth 1000000 in
/-- C6 (amended): on an all-zero frame every correlation is zero, the
strict-improvement scan never updates its zero-initialized best lag, and
the estimator returns 0 — the absence value, not an argmax-lag frequency.
The claim's intended point survives in weakened form: no correlation
magnitude gate exists, so an arbitrarily small periodic signal (amplitude
one millionth) still returns a nonzero pitch. -/
theorem c6_silent_frame :
    (∀ (n sr : ℕ), detectPitch (List.replicate n 0) sr = 0) ∧
    detectPitch tinyToneData 900 = 300 ∧ (300 : ℚ) ≠ 0 := by
  refine ⟨?_, ?_, by norm_num⟩
  · intro n sr
    rw [detectPitch, pitchFromCorr]
    rw [searchFold_zero _ (fun lag => autocorr_zeros n (List.replicate n (0:ℚ)).length lag)]
    rfl
  · with_unfolding_all decide

set_option maxRecDepth 1000000 in
/-- C6 counterexample: on a 20-sample all-zero frame at sample rate 1000
the estimator returns 0, which is none of the argmax-lag frequencies
`1000/lag` of the searched lag range [1, 12) — it signals absence, contrary
to the claim. -/
theorem c6_silent_frame_counterexample : detectPitch (List.replicate 20 0) 1000 = 0 ∧
    (0 : ℚ) ∉ (List.range' 1 11 1).map (fun lag => (1000 : ℚ) / (lag : ℚ)) := by
  with_unfolding_all decide

/-- C7: `N` one-second aging ticks increment every stored slice's age by
exactly `N`: iterating the aging map `N` times equals adding `N` to each
slice's age, so a slice created with age 0 that survives `N` ticks has age
exactly `N`. -/
theorem c7_aging_monotonicity : ∀ (N : ℕ) (l : List LiveSlice),
    ageTick^[N] l = l.map fun s => { s with age := s.age + N } := by
  intro N
  induction N with
  | zero => intro l; simp [List.map_id']
  | succ n ih =>
    intro l
    rw [Function.iterate_succ_apply', ih, ageTick, List.map_map]
    rfl

/-- C8: the Slice Classifier is a pure, deterministic function of
(amplitude, pitch, duration): two invocations with equal arguments return
the same category in both classifier variants.  (Both are total Lean
functions of their three arguments only, hence side-effect-free by
construction.) -/

theorem c8_classifier_purity : ∀ a₁ p₁ d₁ a₂ p₂ d₂ : ℚ, a₁ = a₂ → p₁ = p₂ → d₁ = d₂ →
    categorizeSlice a₁ p₁ d₁ = categorizeSlice a₂ p₂ d₂ ∧
    categorizeSliceLive a₁ p₁ d₁ = categorizeSliceLive a₂ p₂ d₂ := by
  intro a₁ p₁ d₁ a₂ p₂ d₂ ha hp hd
  rw [ha, hp, hd]
  exact ⟨rfl, rfl⟩

/-- C8 witness: determinism instantiated at (0.2, 150, 0.1). -/
theorem c8_classifier_purity_witness :
    ((1:ℚ)/5 = 1/5 ∧ (150:ℚ) = 150 ∧ (1:ℚ)/10 = 1/10) ∧
    (categorizeSlice (1/5) 150 (1/10) = categorizeSlice (1/5) 150 (1/10) ∧
      categorizeSliceLive (1/5) 150 (1/10) = categorizeSliceLive (1/5) 150 (1/10)) :=
  ⟨⟨rfl, rfl, rfl⟩, c8_classifier_purity (1/5) 150 (1/10) (1/5) 150 (1/10) rfl rfl rfl⟩

/-- C9: for a fixed category and ambient-volume setting (nonnegative, as
all UI controls are), the per-trigger playback volume is non-increasing in
the slice's age and bounded below by the floor-determined minimum, in both
`startAmbientLoop` variants (floor 0.3, lifetime 45 s, −15 dB base; floor
0.1, lifetime 30 s, −20 dB base). -/
theorem c9_volume_curve : ∀ (cat : Category) (amb : ℚ) (a₁ a₂ : ℕ), 0 ≤ amb → a₁ ≤ a₂ →
    (triggerVolume cat a₂ amb ≤ triggerVolume cat a₁ amb ∧
      -15 + 3/10 * categoryVolume cat * amb * 15 ≤ triggerVolume cat a₂ amb) ∧
    (triggerVolumeB cat a₂ amb ≤ triggerVolumeB cat a₁ amb ∧
      -20 + 1/10 * categoryVolumeB cat * amb * 20 ≤ triggerVolumeB cat a₂ amb) := by
  intro cat amb a₁ a₂ hamb hle
  have hcv : 0 ≤ categoryVolume cat := by cases cat <;> norm_num [categoryVolume]
  have hcvB : 0 ≤ categoryVolumeB cat := by cases cat <;> norm_num [categoryVolumeB]
  have hmono : ageVolume a₂ ≤ ageVolume a₁ := by
    apply max_le_max le_rfl
    have : (a₁ : ℚ) ≤ (a₂ : ℚ) := by exact_mod_cast hle
    linarith
  have hmonoB : ageVolumeB a₂ ≤ ageVolumeB a₁ := by
    apply max_le_max le_rfl
    have : (a₁ : ℚ) ≤ (a₂ : ℚ) := by exact_mod_cast hle
    linarith
  have hfloor : (3/10 : ℚ) ≤ ageVolume a₂ := le_max_left _ _
  have hfloorB : (1/10 : ℚ) ≤ ageVolumeB a₂ := le_max_left _ _
  refine ⟨⟨?_, ?_⟩, ?_, ?_⟩
  · simp only [triggerVolume]
    gcongr
  · simp only [triggerVolume]
    gcongr
  · simp only [triggerVolumeB]
    gcongr
  · simp only [triggerVolumeB]
    gcongr

/-- C9 witness: the volume curve at category `tonal`, ambient volume 1/2,
ages 1 ≤ 3. -/
theorem c9_volume_curve_witness :
    (0 ≤ (1:ℚ)/2 ∧ (1:ℕ) ≤ 3) ∧
    ((triggerVolume Category.tonal 3 (1/2) ≤ triggerVolume Category.tonal 1 (1/2) ∧
      -15 + 3/10 * categoryVolume Category.tonal * (1/2) * 15 ≤
        triggerVolume Category.tonal 3 (1/2)) ∧
    (triggerVolumeB Category.tonal 3 (1/2) ≤ triggerVolumeB Category.tonal 1 (1/2) ∧
      -20 + 1/10 * categoryVolumeB Category.tonal * (1/2) * 20 ≤
        triggerVolumeB Category.tonal 3 (1/2))) :=
  ⟨⟨by norm_num, by norm_num⟩, c9_volume_curve Category.tonal (1/2) 1 3 (by norm_num) (by norm_num)⟩

/-- C10 (amended): the Segmenter only materializes slices it closed at a
scan index strictly inside the frame — every emitted slice satisfies
`startTime + duration ≤ (N − 1)/sampleRate` — and a candidate still open
when the samples run out is discarded, as the concrete trailing
above-threshold run (shorter than `maxSliceLength`) shows.  The claim's
unconditional "never emitted, whatever its duration" is false: when the
trailing run exceeds `maxSliceLength`, the length cut closes and emits the
candidate mid-run (see the counterexample). -/
theorem c10_closed_before_end : (∀ (x : List ℚ) (sr : ℕ) (t : ℚ), 0 < sr →
    t ∈ (analyzeAndSliceAudio x sr).map (fun s => s.startTime + s.duration) →
    t ≤ ((x.length : ℚ) - 1) / (sr : ℚ)) ∧
    analyzeAndSliceAudio (List.replicate 10 0 ++ List.replicate 5 (1/2)) 10 = [] := by
  constructor
  · intro x sr t hsr ht
    obtain ⟨s, hs, hteq⟩ := List.mem_map.mp ht
    have := (segFold_inv x sr hsr x.length).2 s hs
    rw [← hteq]
    exact this.2.2
  · with_unfolding_all decide

set_option maxRecDepth 1000000 in
/-- C10 witness: the closure bound instantiated on the 22-sample all-loud
frame at sample rate 10. -/
theorem c10_closed_before_end_witness : 0 < 10 ∧
    (21 : ℚ)/10 ∈ (analyzeAndSliceAudio (List.replicate 22 (1/2)) 10).map
      (fun s => s.startTime + s.duration) ∧
    (21 : ℚ)/10 ≤ (((List.replicate 22 ((1:ℚ)/2)).length : ℚ) - 1) / ((10 : ℕ) : ℚ) :=
  ⟨by norm_num, by with_unfolding_all decide,
    c10_closed_before_end.1 (List.replicate 22 (1/2)) 10 (21/10) (by norm_num)
      (by with_unfolding_all decide)⟩

set_option maxRecDepth 1000000 in
/-- C10 counterexample: on a frame whose amplitude stays above the
threshold from sample 0 through the final sample, the candidate opened at
sample 0 is emitted anyway (closed by the `maxSliceLength` cut), so the
claim's unconditional non-emission is false. -/
theorem c10_closed_before_end_counterexample :
    ((List.replicate 22 ((1:ℚ)/2)).all fun v => decide (threshold < |v|)) = true ∧
    (analyzeAndSliceAudio (List.replicate 22 (1/2)) 10).map Slice.startTime = [0] := by
  with_unfolding_all decide

end R2DJ
